import Mathlib

/-!
# Verification of the tanmatsu-hhgg streaming video player core

Shallow embedding of the playback core of the repository:

* `src/main/avi_parser.c` — RIFF/AVI container demuxer (`avi_parser_next_chunk`,
  `avi_parser_rewind`);
* `src/main/main.c` — video frame ring buffer, pending-audio stash,
  pre-buffering (`buffer_one_chunk`, `prebuffer_chunks`) and the wall-clock
  pacer (`process_video_frame`).

Machine integers are modelled as `Nat`/`Int` (the C code uses `size_t`,
`uint32_t` and `int`; all values relevant to the verified properties stay far
below any overflow boundary, and signed quantities such as `video_buffered`,
`current_frame` and `frame_index` are modelled as `Int`).  External
collaborators (the audio queue push, the MJPEG decoder, the wall clock and the
SD-card demux stream) are modelled as explicit oracle inputs, matching the
result types their C interfaces can produce (`audio_player_push_chunk` returns
`ESP_OK` or `ESP_ERR_TIMEOUT` per `audio_player.h`).

Loops are embedded as structurally recursive functions over an explicit fuel
argument whose initial value provably dominates the number of iterations the
C loop can make, so that every definition is executable and evaluable by
`decide`/`rfl` on concrete inputs; fuel-irrelevance lemmas are proved where a
theorem needs to relate calls made with different fuel values.
-/

namespace HHGG

/-! ## Constants from `src/main/main.c` and `src/main/avi_parser.c` -/

/-- `VIDEO_BUFFER_FRAMES` (main.c:63): capacity of the video ring buffer. -/
def VIDEO_BUFFER_FRAMES : Nat := 16

/-- `VIDEO_FRAME_MAX_SIZE` (main.c:64): 64 KiB per compressed frame slot. -/
def VIDEO_FRAME_MAX_SIZE : Nat := 64 * 1024

/-- `PRE_BUFFER_TIME_MS` (main.c:65). -/
def PRE_BUFFER_TIME_MS : Nat := 300

/-- `sizeof(pending_audio_data)` (main.c:81): single-slot audio stash size. -/
def PENDING_AUDIO_CAPACITY : Nat := 4096

/-- `MAX_FRAME_SIZE` (avi_parser.c:12): demuxer destination buffer capacity. -/
def MAX_FRAME_SIZE : Nat := 100 * 1024

/-! ## Container demuxer (`src/main/avi_parser.c`)

The opened file is a byte list; `movi_start`/`movi_end`/`current_pos` are the
byte cursor fields of `avi_parser_t` (avi_parser.h), and `frame_buffer_size`
is the destination buffer capacity set by `avi_parser_open`. -/

/-- Demuxer state: the fields of `avi_parser_t` used by `avi_parser_next_chunk`
and `avi_parser_rewind`.  The file contents are immutable once opened. -/
structure AviParser where
  file : List Nat
  movi_start : Nat
  movi_end : Nat
  current_pos : Nat
  frame_buffer_size : Nat
deriving DecidableEq, Repr

/-- `read_bytes` (avi_parser.c:40): an `fread` of `count` bytes at absolute
position `pos` succeeds exactly when the range lies inside the file. -/
def read_bytes (file : List Nat) (pos count : Nat) : Option (List Nat) :=
  if pos + count ≤ file.length then some ((file.drop pos).take count) else none

/-- `read_u32_le` (avi_parser.c:30): `p[0] | p[1]<<8 | p[2]<<16 | p[3]<<24`. -/
def read_u32_le (b0 b1 b2 b3 : Nat) : Nat :=
  b0 ||| (b1 <<< 8) ||| (b2 <<< 16) ||| (b3 <<< 24)

/-- The declared chunk size parsed from an 8-byte chunk header:
`read_u32_le(chunk_header + 4)` (avi_parser.c:276). -/
def hdr_size (hdr : List Nat) : Nat :=
  read_u32_le (hdr.getD 4 0) (hdr.getD 5 0) (hdr.getD 6 0) (hdr.getD 7 0)

/-- `avi_chunk_type_t` (avi_parser.h): `AVI_CHUNK_VIDEO`, `AVI_CHUNK_AUDIO`,
`AVI_CHUNK_OTHER` (never returned by `avi_parser_next_chunk`, which skips
non-video/audio chunks internally, but part of the interface),
`AVI_CHUNK_END`. -/
inductive AviChunkType
  | video
  | audio
  | other
  | end_of_stream
deriving DecidableEq, Repr

/-- `avi_chunk_t` (avi_parser.h): type, payload bytes, declared size. -/
structure AviChunk where
  type : AviChunkType
  data : List Nat
  size : Nat
deriving DecidableEq, Repr

/-- The `AVI_CHUNK_END` result (avi_parser.c:334-337). -/
def end_chunk : AviChunk := ⟨AviChunkType.end_of_stream, [], 0⟩

/-- Cursor advance past one chunk: `current_pos += 8 + size`, plus one pad
byte when the size is odd (avi_parser.c:282-283 et al.). -/
def chunk_advance (pos size : Nat) : Nat :=
  pos + 8 + size + (if size % 2 = 1 then 1 else 0)

/-- The `while (current_pos + 8 <= movi_end)` loop of `avi_parser_next_chunk`
(avi_parser.c:267-332), with an explicit fuel.  Each iteration either returns
or advances `current_pos` by at least 8, so fuel `movi_end - current_pos`
(used by the wrapper) can never run out while the loop condition holds; the
fuel-zero branch coincides with the loop-condition-false exit in that case
(see `next_chunk_loop_irrel`). -/
def next_chunk_loop : Nat → AviParser → AviChunk × AviParser
  | 0, p => (end_chunk, p)
  | fuel + 1, p =>
    if p.current_pos + 8 ≤ p.movi_end then
      match read_bytes p.file p.current_pos 8 with
      | none => (end_chunk, p)
      | some hdr =>
        let chunk_id := read_u32_le (hdr.getD 0 0) (hdr.getD 1 0) (hdr.getD 2 0) (hdr.getD 3 0)
        let chunk_size := read_u32_le (hdr.getD 4 0) (hdr.getD 5 0) (hdr.getD 6 0) (hdr.getD 7 0)
        if chunk_size > p.frame_buffer_size then
          next_chunk_loop fuel { p with current_pos := chunk_advance p.current_pos chunk_size }
        else
          -- type_hi = 'd' (100) with type_lo 'c' (99) or 'b' (98): video
          if (chunk_id >>> 16) &&& 255 = 100 ∧
              ((chunk_id >>> 24) &&& 255 = 99 ∨ (chunk_id >>> 24) &&& 255 = 98) then
            match read_bytes p.file (p.current_pos + 8) chunk_size with
            | none => (end_chunk, p)
            | some payload =>
              (⟨AviChunkType.video, payload, chunk_size⟩,
                { p with current_pos := chunk_advance p.current_pos chunk_size })
          -- type_hi = 'w' (119) with type_lo 'b' (98): audio
          else if (chunk_id >>> 16) &&& 255 = 119 ∧ (chunk_id >>> 24) &&& 255 = 98 then
            match read_bytes p.file (p.current_pos + 8) chunk_size with
            | none => (end_chunk, p)
            | some payload =>
              (⟨AviChunkType.audio, payload, chunk_size⟩,
                { p with current_pos := chunk_advance p.current_pos chunk_size })
          else
            next_chunk_loop fuel { p with current_pos := chunk_advance p.current_pos chunk_size }
    else (end_chunk, p)

/-- `avi_parser_next_chunk` (avi_parser.c:260-338). -/
def avi_parser_next_chunk (p : AviParser) : AviChunk × AviParser :=
  next_chunk_loop (p.movi_end - p.current_pos) p

/-- `avi_parser_rewind` (avi_parser.c:340-344). -/
def avi_parser_rewind (p : AviParser) : AviParser :=
  { p with current_pos := p.movi_start }

/-- A full scan: repeatedly call `avi_parser_next_chunk`, collecting the
`(type, size)` pairs of the returned chunks, until `AVI_CHUNK_END`.  Each
returned chunk advances the cursor by at least 8 bytes, so fuel
`movi_end - current_pos` (used by the wrapper `avi_scan`) dominates the
number of chunks the loop can yield. -/
def avi_scan_loop : Nat → AviParser → List (AviChunkType × Nat) × AviParser
  | 0, p => ([], p)
  | fuel + 1, p =>
    let r := avi_parser_next_chunk p
    if r.1.type = AviChunkType.end_of_stream then ([], r.2)
    else
      ((r.1.type, r.1.size) :: (avi_scan_loop fuel r.2).1, (avi_scan_loop fuel r.2).2)

/-- Scan the whole `movi` payload region from the current cursor position. -/
def avi_scan (p : AviParser) : List (AviChunkType × Nat) × AviParser :=
  avi_scan_loop (p.movi_end - p.current_pos) p

/-! ## Playback pipeline (`src/main/main.c`)

The static globals of main.c (ring buffer, stash, counters, flags) form the
`PlayerState` record.  External collaborators are oracle inputs:

* the demux stream feeding `buffer_one_chunk` is a `ChunkInput` per call,
  holding the `avi_parser_next_chunk` result (`none` models a non-`ESP_OK`
  return or an `AVI_CHUNK_END` chunk — main.c:259) together with the results
  any `audio_player_push_chunk` calls made during that invocation would
  return (`ESP_OK` or `ESP_ERR_TIMEOUT`, per audio_player.h:18);
* the wall clock enters `process_video_frame` as `elapsed_ms`;
* the MJPEG decoder result enters as `decode_ok`
  (`ret == ESP_OK && bgr_out` — main.c:380). -/

/-- Result of `audio_player_push_chunk` (audio_player.h:15-18):
`ESP_OK` or `ESP_ERR_TIMEOUT` (queue full). -/
inductive PushResult
  | ok
  | timeout
deriving DecidableEq, Repr

/-- One ring-buffer slot: `buffered_frame_t` metadata (main.c:67-70) together
with the slot's copied payload bytes in `video_buffer_memory` (main.c:72). -/
structure BufferedFrame where
  data : List Nat
  size : Nat
  frame_index : Int
deriving DecidableEq, Repr

/-- The static playback state of main.c (lines 59, 72-86, 97). -/
structure PlayerState where
  video_frames : List BufferedFrame
  video_write_idx : Nat
  video_read_idx : Nat
  video_buffered : Int
  next_frame_index : Int
  end_of_file : Bool
  pending_audio_data : List Nat
  pending_audio_size : Nat
  current_frame : Int
  playback_start_time_us : Int
deriving DecidableEq, Repr

/-- Oracle input for one `buffer_one_chunk` invocation. -/
structure ChunkInput where
  demux : Option AviChunk
  retryPush : PushResult
  newPush : PushResult
deriving DecidableEq, Repr

/-- Zero-initialised slot (static arrays start zeroed). -/
def default_frame : BufferedFrame := ⟨[], 0, 0⟩

/-- The slot the consumer reads next: `video_frames[video_read_idx]`
(main.c:353). -/
def front (s : PlayerState) : BufferedFrame :=
  s.video_frames.getD s.video_read_idx default_frame

/-- Buffer state after the reset in `start_playback` (main.c:170-177);
`playback_start_time_us` is zero-initialised until main.c:204 sets it. -/
def reset_state : PlayerState :=
  { video_frames := List.replicate VIDEO_BUFFER_FRAMES default_frame
    video_write_idx := 0
    video_read_idx := 0
    video_buffered := 0
    next_frame_index := 0
    end_of_file := false
    pending_audio_data := []
    pending_audio_size := 0
    current_frame := 0
    playback_start_time_us := 0 }

/-- The retry step at the head of `buffer_one_chunk` (main.c:244-249): if a
pending audio chunk is held, re-push it; clear the stash only on `ESP_OK`. -/
def retry_pending (s : PlayerState) (r : PushResult) : PlayerState :=
  if 0 < s.pending_audio_size then
    (if r = PushResult.ok then { s with pending_audio_size := 0 } else s)
  else s

/-- `buffer_one_chunk` (main.c:242-298).  Returns the new state and the C
return code: 0 = handled a chunk, 1 = EOF, -1 = video ring full. -/
def buffer_one_chunk (s : PlayerState) (inp : ChunkInput) : PlayerState × Int :=
  -- main.c:244-249: first try to push any pending audio chunk
  let s1 := retry_pending s inp.retryPush
  -- main.c:252-254: video ring full
  if (VIDEO_BUFFER_FRAMES : Int) ≤ s1.video_buffered then (s1, -1)
  else
    -- main.c:256-262: read one chunk; a failed read or AVI_CHUNK_END is EOF
    match inp.demux with
    | none => ({ s1 with end_of_file := true }, 1)
    | some chunk =>
      match chunk.type with
      | AviChunkType.end_of_stream => ({ s1 with end_of_file := true }, 1)
      | AviChunkType.audio =>
        -- main.c:264-276: push to the audio queue; on timeout stash a copy,
        -- but only when it fits the 4096-byte stash buffer
        if inp.newPush = PushResult.timeout then
          (if chunk.size ≤ PENDING_AUDIO_CAPACITY then
            ({ s1 with pending_audio_data := chunk.data,
                       pending_audio_size := chunk.size }, 0)
          else (s1, 0))
        else (s1, 0)
      | AviChunkType.video =>
        -- main.c:278-293: copy into the ring, or skip an oversized frame
        if VIDEO_FRAME_MAX_SIZE < chunk.size then
          ({ s1 with next_frame_index := s1.next_frame_index + 1 }, 0)
        else
          ({ s1 with
              video_frames := s1.video_frames.set s1.video_write_idx
                ⟨chunk.data, chunk.size, s1.next_frame_index⟩,
              video_write_idx := (s1.video_write_idx + 1) % VIDEO_BUFFER_FRAMES,
              video_buffered := s1.video_buffered + 1,
              next_frame_index := s1.next_frame_index + 1 }, 0)
      | AviChunkType.other =>
        -- main.c:296-297: unknown chunk type, skip
        (s1, 0)

/-- The buffer top-up loop at the head of `process_video_frame`
(main.c:323-329): at most `max_chunks = 8` reads, stopping at a full ring,
EOF, or any non-zero `buffer_one_chunk` result.  `fuel` counts the remaining
`max_chunks - chunks_read` iterations; the oracle is shifted by one per call
so `inps n` is the input of the n-th `buffer_one_chunk` invocation. -/
def video_topup : Nat → (Nat → ChunkInput) → PlayerState → PlayerState
  | 0, _, s => s
  | fuel + 1, inps, s =>
    if s.video_buffered < (VIDEO_BUFFER_FRAMES : Int) ∧ s.end_of_file = false then
      (if (buffer_one_chunk s (inps 0)).2 = 0 then
        video_topup fuel (fun n => inps (n + 1)) (buffer_one_chunk s (inps 0)).1
      else (buffer_one_chunk s (inps 0)).1)
    else s

/-- The catch-up drop loop of `process_video_frame` (main.c:357-365):
`while (frame->frame_index < expected_frame && video_buffered > 1)` drop the
front frame and advance `current_frame`.  Each iteration decrements
`video_buffered`, so fuel `video_buffered.toNat` (used by `drop_frames`)
dominates the iteration count: with that fuel, fuel exhaustion can only
happen when `video_buffered ≤ 0`, where the loop condition is false anyway.
`drop_one` is one loop body execution (main.c:359-364): consume the front
slot without decoding and set `current_frame = frame->frame_index + 1`. -/
def drop_one (s : PlayerState) : PlayerState :=
  { s with video_read_idx := (s.video_read_idx + 1) % VIDEO_BUFFER_FRAMES,
           video_buffered := s.video_buffered - 1,
           current_frame := (front s).frame_index + 1 }

def drop_loop : Nat → Int → PlayerState → PlayerState
  | 0, _, s => s
  | fuel + 1, expected, s =>
    if (front s).frame_index < expected ∧ 1 < s.video_buffered then
      drop_loop fuel expected (drop_one s)
    else s

/-- The drop loop entered with its natural fuel. -/
def drop_frames (expected : Int) (s : PlayerState) : PlayerState :=
  drop_loop s.video_buffered.toNat expected s

/-- Observable outcome of one `process_video_frame` call: the new state, the
boolean return value (`true` = video ended), whether
`audio_player_end_stream` was called, the frame handed to
`mjpeg_decoder_decode` (if any) and the frame index copied to the
framebuffer (if the decode succeeded). -/
structure StepResult where
  state : PlayerState
  ended : Bool
  end_stream_signaled : Bool
  decoded_frame : Option BufferedFrame
  displayed : Option Int
deriving DecidableEq, Repr

/-- `process_video_frame` (main.c:320-408). -/
def process_video_frame (frame_duration_ms elapsed_ms : Nat) (decode_ok : Bool)
    (inps : Nat → ChunkInput) (s : PlayerState) : StepResult :=
  -- main.c:323-329: read chunks to maintain buffers
  let s1 := video_topup 8 inps s
  -- main.c:332-336: end of video: signal audio end-of-stream, return true
  if s1.video_buffered = 0 ∧ s1.end_of_file = true then
    ⟨s1, true, true, none, none⟩
  else
    -- main.c:339-340: expected frame from the wall clock
    let expected_frame : Int := Int.ofNat (elapsed_ms / frame_duration_ms)
    -- main.c:343-345: ahead of schedule, wait
    if expected_frame < s1.current_frame then ⟨s1, false, false, none, none⟩
    -- main.c:348-350: no frames buffered, wait
    else if s1.video_buffered = 0 then ⟨s1, false, false, none, none⟩
    else
      -- main.c:353-365: drop frames to catch up
      let s2 := drop_frames expected_frame s1
      let fr := front s2
      -- main.c:370-376: decode the frame, then consume it from the ring
      let s3 := { s2 with
                  video_read_idx := (s2.video_read_idx + 1) % VIDEO_BUFFER_FRAMES,
                  video_buffered := s2.video_buffered - 1 }
      -- main.c:380-405: on success set current_frame and blit to framebuffer
      if decode_ok then
        ⟨{ s3 with current_frame := fr.frame_index + 1 }, false, false,
          some fr, some fr.frame_index⟩
      else
        ⟨s3, false, false, some fr, none⟩

/-- Pre-buffer target (main.c:303-305): `(PRE_BUFFER_TIME_MS * fps) / 1000`,
raised to at least 3 and capped at `VIDEO_BUFFER_FRAMES - 2`. -/
def target_frames (fps : Nat) : Nat :=
  let t0 := PRE_BUFFER_TIME_MS * fps / 1000
  let t1 := if t0 < 3 then 3 else t0
  if VIDEO_BUFFER_FRAMES - 2 < t1 then VIDEO_BUFFER_FRAMES - 2 else t1

/-- The demuxer's behaviour once the chunk-input list is exhausted: the file
has no further chunks, so `avi_parser_next_chunk` yields `AVI_CHUNK_END`. -/
def eof_input : ChunkInput := ⟨none, PushResult.ok, PushResult.ok⟩

/-- The loop of `prebuffer_chunks` (main.c:309-313): pull chunks while fewer
than `target` frames are buffered and EOF has not been reached, breaking on
an EOF result.  Structural recursion over the per-call oracle list; when the
list is exhausted the demuxer is at end of file (`eof_input`), which makes
the next call set `end_of_file` and exit the loop. -/
def prebuffer_loop (target : Nat) : List ChunkInput → PlayerState → PlayerState
  | [], s =>
    if s.video_buffered < (target : Int) ∧ s.end_of_file = false then
      (buffer_one_chunk s eof_input).1
    else s
  | inp :: rest, s =>
    if s.video_buffered < (target : Int) ∧ s.end_of_file = false then
      (if (buffer_one_chunk s inp).2 = 1 then (buffer_one_chunk s inp).1
       else prebuffer_loop target rest (buffer_one_chunk s inp).1)
    else s

/-- `prebuffer_chunks` (main.c:300-317) for a given playback fps. -/
def prebuffer_chunks (fps : Nat) (inps : List ChunkInput) (s : PlayerState) :
    PlayerState :=
  prebuffer_loop (target_frames fps) inps s

/-- `parse_avih` fps computation (avi_parser.c:48-49):
`us_per_frame > 0 ? 1000000 / us_per_frame : 30`. -/
def avih_fps (us_per_frame : Nat) : Nat :=
  if 0 < us_per_frame then 1000000 / us_per_frame else 30

/-- `start_playback` fps selection (main.c:150):
`avi_info->fps > 0 ? avi_info->fps : 30`. -/
def playback_video_fps (info_fps : Nat) : Nat :=
  if 0 < info_fps then info_fps else 30

/-- `start_playback` frame duration (main.c:151): `1000 / video_fps`. -/
def playback_frame_duration_ms (info_fps : Nat) : Nat :=
  1000 / playback_video_fps info_fps

/-- One producer/consumer operation on the shared playback state: either a
`buffer_one_chunk` call (producer write path) or a `process_video_frame`
call (pacer drop/pop path). -/
inductive PlayerOp where
  | buffer (inp : ChunkInput)
  | pace (frame_duration_ms elapsed_ms : Nat) (decode_ok : Bool)
      (inps : Nat → ChunkInput)

/-- Apply one operation to the playback state. -/
def apply_op (s : PlayerState) : PlayerOp → PlayerState
  | PlayerOp.buffer inp => (buffer_one_chunk s inp).1
  | PlayerOp.pace d e ok inps => (process_video_frame d e ok inps s).state

/-- Run a sequence of operations from a starting state. -/
def exec_ops (ops : List PlayerOp) (s : PlayerState) : PlayerState :=
  ops.foldl apply_op s

/-- Frame index stored `k` slots after the read cursor (modulo the ring
capacity). -/
def frame_at (s : PlayerState) (k : Nat) : Int :=
  (s.video_frames.getD ((s.video_read_idx + k) % VIDEO_BUFFER_FRAMES)
    default_frame).frame_index

/-- The ring-buffer ordering invariant of reachable playback states: the
front buffered frame's index is at least `current_frame` (the consumer sets
`current_frame = frame_index + 1` of a consumed frame and frames are written
in demux order), and frame indices strictly increase along the occupied
window. -/
def ring_ordered (s : PlayerState) : Prop :=
  (0 < s.video_buffered → s.current_frame ≤ frame_at s 0) ∧
  (∀ k : Nat, k < s.video_buffered.toNat - 1 → frame_at s k < frame_at s (k + 1))

instance (s : PlayerState) : Decidable (ring_ordered s) := by
  unfold ring_ordered
  infer_instance

/-! ## Concrete fixtures used by witnesses and counterexamples -/

/-- A `movi` region holding an oversized chunk (declared size 5, destination
capacity 4) followed by a small `00dc` video chunk of size 2. -/
def c5_container : AviParser :=
  ⟨[48, 48, 100, 99, 5, 0, 0, 0, 1, 2, 3, 4, 5, 0,
    48, 48, 100, 99, 2, 0, 0, 0, 7, 8], 0, 24, 0, 4⟩

/-- A `movi` region holding a `00dc` video chunk of size 2 and a padded
`01wb` audio chunk of size 1. -/
def c6_container : AviParser :=
  ⟨[48, 48, 100, 99, 2, 0, 0, 0, 9, 9,
    48, 49, 119, 98, 1, 0, 0, 0, 7, 0], 0, 20, 0, 100⟩

/-- A playback state with exactly one buffered frame (index 0) at the front
and end-of-file already reached; `current_frame = 0`. -/
def one_frame_state : PlayerState :=
  { video_frames := (⟨[3], 1, 0⟩ : BufferedFrame) :: List.replicate 15 default_frame
    video_write_idx := 1
    video_read_idx := 0
    video_buffered := 1
    next_frame_index := 1
    end_of_file := true
    pending_audio_data := []
    pending_audio_size := 0
    current_frame := 0
    playback_start_time_us := 0 }

/-- A playback state with two buffered frames (indices 0 and 1) and
end-of-file already reached; `current_frame = 0`. -/
def two_frame_state : PlayerState :=
  { video_frames := (⟨[3], 1, 0⟩ : BufferedFrame) :: (⟨[4], 1, 1⟩ : BufferedFrame)
      :: List.replicate 14 default_frame
    video_write_idx := 2
    video_read_idx := 0
    video_buffered := 2
    next_frame_index := 2
    end_of_file := true
    pending_audio_data := []
    pending_audio_size := 0
    current_frame := 0
    playback_start_time_us := 0 }

/-- A fresh playback state holding a 3-byte chunk in the pending-audio
stash. -/
def pending_state : PlayerState :=
  { reset_state with pending_audio_data := [1, 2, 3], pending_audio_size := 3 }

/-- A demuxed 2-byte audio chunk whose push times out, arriving while the
stash is occupied and its retry also timed out. -/
def c3_inp : ChunkInput :=
  ⟨some ⟨AviChunkType.audio, [9, 9], 2⟩, PushResult.timeout, PushResult.timeout⟩

/-- A demuxed 2-byte audio chunk whose push times out on an empty stash. -/
def c4_inp : ChunkInput :=
  ⟨some ⟨AviChunkType.audio, [5, 6], 2⟩, PushResult.ok, PushResult.timeout⟩

/-- An oversized (4097-byte) audio chunk whose push times out. -/
def c4_big_inp : ChunkInput :=
  ⟨some ⟨AviChunkType.audio, [], 4097⟩, PushResult.ok, PushResult.timeout⟩

/-- `avi_parser_next_chunk` mutates only `current_pos`: the file contents and
the region bounds are read-only during demuxing (avi_parser.c). -/
lemma next_chunk_loop_fields :
    ∀ (fuel : Nat) (p : AviParser),
      (next_chunk_loop fuel p).2.file = p.file ∧
      (next_chunk_loop fuel p).2.movi_start = p.movi_start ∧
      (next_chunk_loop fuel p).2.movi_end = p.movi_end ∧
      (next_chunk_loop fuel p).2.frame_buffer_size = p.frame_buffer_size := by
  intro fuel
  induction fuel with
  | zero => intro p; simp [next_chunk_loop]
  | succ n ih =>
    intro p
    simp only [next_chunk_loop]
    split
    · split
      · simp
      · split
        · simpa using ih _
        · split
          · split <;> simp
          · split
            · split <;> simp
            · simpa using ih _
    · simp

/-- Advancing past a chunk moves the cursor by at least `8 + size`. -/
lemma chunk_advance_ge (pos size : Nat) : pos + 8 ≤ chunk_advance pos size := by
  unfold chunk_advance
  split <;> omega

/-- Fuel irrelevance for the demux loop: any fuel at least
`movi_end - current_pos` produces the same result, because each iteration
advances the cursor by at least 8 bytes while the loop condition requires
`current_pos + 8 ≤ movi_end`. -/
lemma next_chunk_loop_irrel :
    ∀ (f1 : Nat) (p : AviParser) (f2 : Nat),
      p.movi_end - p.current_pos ≤ f1 → p.movi_end - p.current_pos ≤ f2 →
      next_chunk_loop f1 p = next_chunk_loop f2 p := by
  intro f1
  induction f1 with
  | zero =>
    intro p f2 h1 _
    have hpos : ¬ (p.current_pos + 8 ≤ p.movi_end) := by omega
    cases f2 with
    | zero => rfl
    | succ m => simp [next_chunk_loop, hpos]
  | succ n ih =>
    intro p f2 h1 h2
    by_cases hc : p.current_pos + 8 ≤ p.movi_end
    · cases f2 with
      | zero => omega
      | succ m =>
        simp only [next_chunk_loop, if_pos hc]
        split
        · rfl
        · next hdr heq =>
          have hadv := chunk_advance_ge p.current_pos
            (read_u32_le (hdr.getD 4 0) (hdr.getD 5 0) (hdr.getD 6 0) (hdr.getD 7 0))
          split
          · exact ih _ _ (by simp only; omega) (by simp only; omega)
          · split
            · split <;> rfl
            · split
              · split <;> rfl
              · exact ih _ _ (by simp only; omega) (by simp only; omega)
    · cases f2 with
      | zero => simp [next_chunk_loop, hc]
      | succ m => simp [next_chunk_loop, hc]

/-- Size bound for the demux loop: a chunk actually returned (not the end
marker) passed the `chunk_size > frame_buffer_size` guard. -/
lemma next_chunk_loop_size_le :
    ∀ (fuel : Nat) (p : AviParser),
      (next_chunk_loop fuel p).1.type ≠ AviChunkType.end_of_stream →
      (next_chunk_loop fuel p).1.size ≤ p.frame_buffer_size := by
  intro fuel
  induction fuel with
  | zero => intro p h; simp [next_chunk_loop, end_chunk] at h
  | succ n ih =>
    intro p
    simp only [next_chunk_loop]
    split
    · split
      · simp [end_chunk]
      · split
        · next hbig => exact fun h => ih _ h
        · next hsmall =>
          split
          · split
            · simp [end_chunk]
            · intro _; simp only; omega
          · split
            · split
              · simp [end_chunk]
              · intro _; simp only; omega
            · exact fun h => ih _ h
    · simp [end_chunk]

/-- `avi_scan_loop` also mutates only `current_pos`. -/
lemma avi_scan_loop_fields :
    ∀ (fuel : Nat) (p : AviParser),
      (avi_scan_loop fuel p).2.file = p.file ∧
      (avi_scan_loop fuel p).2.movi_start = p.movi_start ∧
      (avi_scan_loop fuel p).2.movi_end = p.movi_end ∧
      (avi_scan_loop fuel p).2.frame_buffer_size = p.frame_buffer_size := by
  intro fuel
  induction fuel with
  | zero => intro p; simp [avi_scan_loop]
  | succ n ih =>
    intro p
    have hnf := next_chunk_loop_fields (p.movi_end - p.current_pos) p
    have hrec := ih (next_chunk_loop (p.movi_end - p.current_pos) p).2
    simp only [avi_scan_loop, avi_parser_next_chunk]
    split
    · exact hnf
    · exact ⟨hrec.1.trans hnf.1, hrec.2.1.trans hnf.2.1,
             hrec.2.2.1.trans hnf.2.2.1, hrec.2.2.2.trans hnf.2.2.2⟩

/-! ### Lemmas about the playback pipeline -/

/-- `retry_pending` changes only `pending_audio_size`. -/
lemma retry_pending_fields (s : PlayerState) (r : PushResult) :
    (retry_pending s r).video_frames = s.video_frames ∧
    (retry_pending s r).video_write_idx = s.video_write_idx ∧
    (retry_pending s r).video_read_idx = s.video_read_idx ∧
    (retry_pending s r).video_buffered = s.video_buffered ∧
    (retry_pending s r).next_frame_index = s.next_frame_index ∧
    (retry_pending s r).end_of_file = s.end_of_file ∧
    (retry_pending s r).pending_audio_data = s.pending_audio_data ∧
    (retry_pending s r).current_frame = s.current_frame ∧
    (retry_pending s r).playback_start_time_us = s.playback_start_time_us := by
  unfold retry_pending
  split_ifs <;> simp

/-- `retry_pending` clears the stash exactly when the retry push succeeds. -/
lemma retry_pending_size (s : PlayerState) (r : PushResult) :
    (retry_pending s r).pending_audio_size =
      (if 0 < s.pending_audio_size ∧ r = PushResult.ok then 0
       else s.pending_audio_size) := by
  unfold retry_pending
  split_ifs <;> simp_all

/-- `buffer_one_chunk` never touches the consumer-side fields
(`current_frame`, `video_read_idx`) or the playback clock. -/
lemma buffer_one_chunk_untouched (s : PlayerState) (inp : ChunkInput) :
    (buffer_one_chunk s inp).1.current_frame = s.current_frame ∧
    (buffer_one_chunk s inp).1.video_read_idx = s.video_read_idx ∧
    (buffer_one_chunk s inp).1.playback_start_time_us = s.playback_start_time_us := by
  obtain ⟨hf1, hf2, hf3, hf4, hf5, hf6, hf7, hf8, hf9⟩ :=
    retry_pending_fields s inp.retryPush
  unfold buffer_one_chunk
  rcases hd : inp.demux with _ | ⟨t, dat, sz⟩
  · dsimp only
    split_ifs <;> simp [hf3, hf8, hf9]
  · cases t <;> (dsimp only; split_ifs <;> simp [hf3, hf8, hf9])

/-- The producer writes one frame only when the ring is not full; otherwise
the occupancy is unchanged. -/
lemma buffer_one_chunk_buffered (s : PlayerState) (inp : ChunkInput) :
    (buffer_one_chunk s inp).1.video_buffered = s.video_buffered ∨
    (s.video_buffered < (VIDEO_BUFFER_FRAMES : Int) ∧
     (buffer_one_chunk s inp).1.video_buffered = s.video_buffered + 1) := by
  obtain ⟨hf1, hf2, hf3, hf4, hf5, hf6, hf7, hf8, hf9⟩ :=
    retry_pending_fields s inp.retryPush
  unfold buffer_one_chunk
  rcases hd : inp.demux with _ | ⟨t, dat, sz⟩
  · dsimp only
    split_ifs <;> simp [hf4]
  · cases t <;> (dsimp only; split_ifs <;> simp [hf4] <;> omega)

/-- A `buffer_one_chunk` return value of 1 records end-of-file. -/
lemma buffer_one_chunk_ret_one (s : PlayerState) (inp : ChunkInput) :
    (buffer_one_chunk s inp).2 = 1 → (buffer_one_chunk s inp).1.end_of_file = true := by
  obtain ⟨hf1, hf2, hf3, hf4, hf5, hf6, hf7, hf8, hf9⟩ :=
    retry_pending_fields s inp.retryPush
  unfold buffer_one_chunk
  rcases hd : inp.demux with _ | ⟨t, dat, sz⟩
  · dsimp only
    split_ifs <;> simp
  · cases t <;> (dsimp only; split_ifs <;> simp [hf6])

/-- `end_of_file` is never cleared by the producer. -/
lemma buffer_one_chunk_eof_mono (s : PlayerState) (inp : ChunkInput) :
    s.end_of_file = true → (buffer_one_chunk s inp).1.end_of_file = true := by
  obtain ⟨hf1, hf2, hf3, hf4, hf5, hf6, hf7, hf8, hf9⟩ :=
    retry_pending_fields s inp.retryPush
  intro h
  unfold buffer_one_chunk
  rcases hd : inp.demux with _ | ⟨t, dat, sz⟩
  · dsimp only
    split_ifs <;> simp [hf6, h]
  · cases t <;> (dsimp only; split_ifs <;> simp [hf6, h])

/-- Stash behaviour of one `buffer_one_chunk` call: either the demuxed chunk
was an audio chunk whose push timed out and which fits the 4096-byte stash —
then it is captured (overwriting the slot) — or the stash is exactly what
`retry_pending` left (its bytes unchanged). -/
lemma buffer_one_chunk_pending_char (s : PlayerState) (inp : ChunkInput) :
    (∃ dat sz, inp.demux = some ⟨AviChunkType.audio, dat, sz⟩ ∧
        s.video_buffered < (VIDEO_BUFFER_FRAMES : Int) ∧
        inp.newPush = PushResult.timeout ∧ sz ≤ PENDING_AUDIO_CAPACITY ∧
        (buffer_one_chunk s inp).1.pending_audio_size = sz ∧
        (buffer_one_chunk s inp).1.pending_audio_data = dat) ∨
    ((buffer_one_chunk s inp).1.pending_audio_size =
        (retry_pending s inp.retryPush).pending_audio_size ∧
     (buffer_one_chunk s inp).1.pending_audio_data = s.pending_audio_data) := by
  obtain ⟨hf1, hf2, hf3, hf4, hf5, hf6, hf7, hf8, hf9⟩ :=
    retry_pending_fields s inp.retryPush
  unfold buffer_one_chunk
  rcases hd : inp.demux with _ | ⟨t, dat, sz⟩
  · right
    dsimp only
    split_ifs <;> simp [hf7]
  · cases t
    case audio =>
      dsimp only
      split_ifs with h1 h2 h3
      · right; simp [hf7]
      · left
        refine ⟨dat, sz, rfl, by omega, h2, h3, by simp, by simp⟩
      · right; simp [hf7]
      · right; simp [hf7]
    case video =>
      right
      dsimp only
      split_ifs <;> simp [hf7]
    case other =>
      right
      dsimp only
      split_ifs <;> simp [hf7]
    case end_of_stream =>
      right
      dsimp only
      split_ifs <;> simp [hf7]

/-- The top-up loop never touches the consumer-side fields or the clock. -/
lemma video_topup_untouched :
    ∀ (fuel : Nat) (inps : Nat → ChunkInput) (s : PlayerState),
      (video_topup fuel inps s).current_frame = s.current_frame ∧
      (video_topup fuel inps s).video_read_idx = s.video_read_idx ∧
      (video_topup fuel inps s).playback_start_time_us = s.playback_start_time_us := by
  intro fuel
  induction fuel with
  | zero => intro inps s; exact ⟨rfl, rfl, rfl⟩
  | succ n ih =>
    intro inps s
    have hb := buffer_one_chunk_untouched s (inps 0)
    simp only [video_topup]
    split
    · split
      · have hr := ih (fun n => inps (n + 1)) (buffer_one_chunk s (inps 0)).1
        exact ⟨hr.1.trans hb.1, hr.2.1.trans hb.2.1, hr.2.2.trans hb.2.2⟩
      · exact hb
    · exact ⟨rfl, rfl, rfl⟩

/-- The top-up loop never removes frames from the ring. -/
lemma video_topup_buffered_mono :
    ∀ (fuel : Nat) (inps : Nat → ChunkInput) (s : PlayerState),
      s.video_buffered ≤ (video_topup fuel inps s).video_buffered := by
  intro fuel
  induction fuel with
  | zero => intro inps s; exact le_refl _
  | succ n ih =>
    intro inps s
    have hb := buffer_one_chunk_buffered s (inps 0)
    simp only [video_topup]
    split
    · split
      · have hr := ih (fun n => inps (n + 1)) (buffer_one_chunk s (inps 0)).1
        rcases hb with hb | hb <;> omega
      · rcases hb with hb | hb <;> omega
    · exact le_refl _

/-- The top-up loop keeps the occupancy within the ring bounds. -/
lemma video_topup_bounds :
    ∀ (fuel : Nat) (inps : Nat → ChunkInput) (s : PlayerState),
      0 ≤ s.video_buffered → s.video_buffered ≤ (VIDEO_BUFFER_FRAMES : Int) →
      0 ≤ (video_topup fuel inps s).video_buffered ∧
      (video_topup fuel inps s).video_buffered ≤ (VIDEO_BUFFER_FRAMES : Int) := by
  intro fuel
  induction fuel with
  | zero => intro inps s h0 h1; exact ⟨h0, h1⟩
  | succ n ih =>
    intro inps s h0 h1
    have hb := buffer_one_chunk_buffered s (inps 0)
    simp only [video_topup]
    split
    · split
      · exact ih (fun n => inps (n + 1)) (buffer_one_chunk s (inps 0)).1
          (by rcases hb with hb | hb <;> omega) (by rcases hb with hb | hb <;> omega)
      · constructor
        · rcases hb with hb | hb <;> omega
        · rcases hb with hb | hb <;> omega
    · exact ⟨h0, h1⟩

/-- Field effect of one drop iteration. -/
lemma drop_one_fields (s : PlayerState) :
    (drop_one s).video_buffered = s.video_buffered - 1 ∧
    (drop_one s).video_read_idx = (s.video_read_idx + 1) % VIDEO_BUFFER_FRAMES ∧
    (drop_one s).current_frame = (front s).frame_index + 1 ∧
    (drop_one s).video_frames = s.video_frames := by
  unfold drop_one
  exact ⟨rfl, rfl, rfl, rfl⟩

/-- The drop loop never drops the last buffered frame: its guard requires
`video_buffered > 1`. -/
lemma drop_loop_ge_one :
    ∀ (fuel : Nat) (e : Int) (s : PlayerState),
      1 ≤ s.video_buffered → 1 ≤ (drop_loop fuel e s).video_buffered := by
  intro fuel
  induction fuel with
  | zero => intro e s h; exact h
  | succ n ih =>
    intro e s h
    simp only [drop_loop]
    split
    · next hcond =>
      refine ih e _ ?_
      rw [(drop_one_fields s).1]
      omega
    · exact h

/-- The drop loop never adds frames. -/
lemma drop_loop_le :
    ∀ (fuel : Nat) (e : Int) (s : PlayerState),
      (drop_loop fuel e s).video_buffered ≤ s.video_buffered := by
  intro fuel
  induction fuel with
  | zero => intro e s; exact le_refl _
  | succ n ih =>
    intro e s
    simp only [drop_loop]
    split
    · next hcond =>
      have h1 := ih e (drop_one s)
      rw [(drop_one_fields s).1] at h1
      omega
    · exact le_refl _

/-- When the read cursor is in range, the front slot is the window's first
frame. -/
lemma front_frame_at (s : PlayerState) (h : s.video_read_idx < VIDEO_BUFFER_FRAMES) :
    (front s).frame_index = frame_at s 0 := by
  unfold front frame_at
  rw [Nat.add_zero, Nat.mod_eq_of_lt h]

/-- Dropping the front frame shifts the read window by one slot. -/
lemma frame_at_drop_one (s : PlayerState) (k : Nat) :
    frame_at (drop_one s) k = frame_at s (k + 1) := by
  unfold frame_at drop_one
  simp only
  have heq : ((s.video_read_idx + 1) % VIDEO_BUFFER_FRAMES + k) % VIDEO_BUFFER_FRAMES
      = (s.video_read_idx + (k + 1)) % VIDEO_BUFFER_FRAMES := by
    rw [Nat.mod_add_mod]
    congr 1
    omega
  rw [heq]

/-- One drop iteration preserves the ring ordering invariant, keeps the read
cursor in range, and strictly advances `current_frame` past the old
front frame. -/
lemma drop_one_ordered (s : PlayerState)
    (h2 : s.video_read_idx < VIDEO_BUFFER_FRAMES)
    (hb2 : 1 < s.video_buffered) (h3 : ring_ordered s) :
    1 ≤ (drop_one s).video_buffered ∧
    (drop_one s).video_read_idx < VIDEO_BUFFER_FRAMES ∧
    ring_ordered (drop_one s) ∧
    s.current_frame ≤ s.current_frame ∧
    s.current_frame < (drop_one s).current_frame := by
  obtain ⟨hfront, hmono⟩ := h3
  obtain ⟨hd1, hd2, hd3, hd4⟩ := drop_one_fields s
  have hf0 := front_frame_at s h2
  refine ⟨by omega, ?_, ⟨?_, ?_⟩, le_refl _, ?_⟩
  · rw [hd2]
    exact Nat.mod_lt _ (by decide)
  · intro hb
    rw [frame_at_drop_one, hd3, hf0]
    have := hmono 0 (by omega)
    omega
  · intro k hk
    rw [frame_at_drop_one, frame_at_drop_one]
    refine hmono (k + 1) ?_
    rw [hd1] at hk
    omega
  · rw [hd3, hf0]
    have := hfront (by omega)
    omega

/-- The drop loop preserves the ring ordering invariant and never moves
`current_frame` backwards. -/
lemma drop_loop_ordered :
    ∀ (fuel : Nat) (e : Int) (s : PlayerState),
      1 ≤ s.video_buffered → s.video_read_idx < VIDEO_BUFFER_FRAMES →
      ring_ordered s →
      1 ≤ (drop_loop fuel e s).video_buffered ∧
      (drop_loop fuel e s).video_read_idx < VIDEO_BUFFER_FRAMES ∧
      ring_ordered (drop_loop fuel e s) ∧
      s.current_frame ≤ (drop_loop fuel e s).current_frame := by
  intro fuel
  induction fuel with
  | zero => intro e s h1 h2 h3; exact ⟨h1, h2, h3, le_refl _⟩
  | succ n ih =>
    intro e s h1 h2 h3
    simp only [drop_loop]
    split
    · next hcond =>
      obtain ⟨hg1, hg2, hg3, _, hg5⟩ := drop_one_ordered s h2 hcond.2 h3
      have hrec := ih e (drop_one s) hg1 hg2 hg3
      exact ⟨hrec.1, hrec.2.1, hrec.2.2.1, by have := hrec.2.2.2; omega⟩
    · exact ⟨h1, h2, h3, le_refl _⟩

/-- After one retry, a second retry whose push is not `ESP_OK` changes
nothing: the retry step is idempotent on a cleared-or-kept stash. -/
lemma retry_pending_idem (s : PlayerState) (r : PushResult) :
    retry_pending (retry_pending s r) PushResult.timeout = retry_pending s r := by
  unfold retry_pending
  split_ifs <;> simp_all

/-- A demux read that fails (or returns `AVI_CHUNK_END`) sets `end_of_file`
whenever the ring-full early return is not taken. -/
lemma buffer_one_chunk_none_eof (s : PlayerState) (inp : ChunkInput)
    (hd : inp.demux = none) (hb : s.video_buffered < (VIDEO_BUFFER_FRAMES : Int)) :
    (buffer_one_chunk s inp).1.end_of_file = true := by
  obtain ⟨hf1, hf2, hf3, hf4, hf5, hf6, hf7, hf8, hf9⟩ :=
    retry_pending_fields s inp.retryPush
  unfold buffer_one_chunk
  rw [hd]
  dsimp only
  rw [if_neg (by omega)]

/-- The pre-buffer target never exceeds the ring capacity. -/
lemma target_frames_le (fps : Nat) : target_frames fps ≤ VIDEO_BUFFER_FRAMES := by
  unfold target_frames VIDEO_BUFFER_FRAMES
  dsimp only
  split_ifs <;> omega

/-- Postcondition of the pre-buffer loop: it stops only once the target
occupancy is reached or end-of-file is recorded, and it never touches the
playback clock. -/
lemma prebuffer_loop_post :
    ∀ (inps : List ChunkInput) (target : Nat) (s : PlayerState),
      target ≤ VIDEO_BUFFER_FRAMES →
      ((target : Int) ≤ (prebuffer_loop target inps s).video_buffered ∨
        (prebuffer_loop target inps s).end_of_file = true) ∧
      (prebuffer_loop target inps s).playback_start_time_us =
        s.playback_start_time_us := by
  intro inps
  induction inps with
  | nil =>
    intro target s htgt
    simp only [prebuffer_loop]
    split
    · next hcond =>
      refine ⟨Or.inr ?_, (buffer_one_chunk_untouched s eof_input).2.2⟩
      refine buffer_one_chunk_none_eof s eof_input rfl ?_
      have h1 := hcond.1
      have h2 : VIDEO_BUFFER_FRAMES = 16 := rfl
      omega
    · next hcond =>
      refine ⟨?_, rfl⟩
      rcases not_and_or.mp hcond with h | h
      · exact Or.inl (by omega)
      · refine Or.inr ?_
        revert h
        cases s.end_of_file <;> simp
  | cons inp rest ih =>
    intro target s htgt
    simp only [prebuffer_loop]
    split
    · next hcond =>
      split
      · next hr1 =>
        exact ⟨Or.inr (buffer_one_chunk_ret_one s inp hr1),
               (buffer_one_chunk_untouched s inp).2.2⟩
      · next hr1 =>
        have hrec := ih target (buffer_one_chunk s inp).1 htgt
        exact ⟨hrec.1, hrec.2.trans (buffer_one_chunk_untouched s inp).2.2⟩
    · next hcond =>
      refine ⟨?_, rfl⟩
      rcases not_and_or.mp hcond with h | h
      · exact Or.inl (by omega)
      · refine Or.inr ?_
        revert h
        cases s.end_of_file <;> simp

/-- When the top-up leaves the ring empty, the pacer never decrements: every
branch of `process_video_frame` leaves `video_buffered` unchanged. -/
lemma process_video_frame_b0 (d e : Nat) (ok : Bool) (inps : Nat → ChunkInput)
    (s : PlayerState) (hb0 : (video_topup 8 inps s).video_buffered = 0) :
    (process_video_frame d e ok inps s).state.video_buffered =
      (video_topup 8 inps s).video_buffered := by
  unfold process_video_frame
  dsimp only
  split_ifs <;> simp_all

/-- The pacer keeps the ring occupancy within bounds. -/
lemma process_video_frame_bounds (d e : Nat) (ok : Bool) (inps : Nat → ChunkInput)
    (s : PlayerState) (h0 : 0 ≤ s.video_buffered)
    (h16 : s.video_buffered ≤ (VIDEO_BUFFER_FRAMES : Int)) :
    0 ≤ (process_video_frame d e ok inps s).state.video_buffered ∧
    (process_video_frame d e ok inps s).state.video_buffered ≤
      (VIDEO_BUFFER_FRAMES : Int) := by
  obtain ⟨ht0, ht16⟩ := video_topup_bounds 8 inps s h0 h16
  have hge := drop_loop_ge_one (video_topup 8 inps s).video_buffered.toNat
    (Int.ofNat (e / d)) (video_topup 8 inps s)
  have hle := drop_loop_le (video_topup 8 inps s).video_buffered.toNat
    (Int.ofNat (e / d)) (video_topup 8 inps s)
  unfold process_video_frame
  dsimp only
  split_ifs <;> simp only [drop_frames] <;> constructor <;> first
    | exact ht0
    | exact ht16
    | (dsimp only; omega)

/-- Bounds invariant along any operation sequence. -/
lemma exec_ops_bounds :
    ∀ (ops : List PlayerOp) (s : PlayerState),
      0 ≤ s.video_buffered → s.video_buffered ≤ (VIDEO_BUFFER_FRAMES : Int) →
      0 ≤ (exec_ops ops s).video_buffered ∧
      (exec_ops ops s).video_buffered ≤ (VIDEO_BUFFER_FRAMES : Int) := by
  intro ops
  induction ops with
  | nil => intro s h0 h16; exact ⟨h0, h16⟩
  | cons op rest ih =>
    intro s h0 h16
    simp only [exec_ops, List.foldl_cons]
    cases op with
    | buffer inp =>
      have hb := buffer_one_chunk_buffered s inp
      exact ih (buffer_one_chunk s inp).1
        (by rcases hb with hb | hb <;> omega)
        (by rcases hb with hb | hb <;> omega)
    | pace d e ok inps =>
      have hp := process_video_frame_bounds d e ok inps s h0 h16
      exact ih _ hp.1 hp.2

/-- `1000 / playback_video_fps f` is positive whenever the effective fps does
not exceed 1000. -/
lemma duration_pos_of_fps_le (f : Nat) (hf : f ≤ 1000) :
    1 ≤ playback_frame_duration_ms f := by
  unfold playback_frame_duration_ms playback_video_fps
  split
  · next h => exact (Nat.one_le_div_iff h).mpr hf
  · decide

/-! ## Claim theorems -/

/-- **C5** — For every chunk returned by `avi_parser_next_chunk` (video or
audio), the chunk's size is at most the destination buffer capacity
`frame_buffer_size`; a chunk whose declared size exceeds that capacity is
never returned: the parser advances the cursor past its payload
(`current_pos += 8 + size` plus padding) and continues with the next chunk
instead of aborting. -/
theorem c5_chunk_size_invariant :
    (∀ p : AviParser,
      (avi_parser_next_chunk p).1.type ≠ AviChunkType.end_of_stream →
      (avi_parser_next_chunk p).1.size ≤ p.frame_buffer_size) ∧
    (∀ (p : AviParser) (hdr : List Nat),
      p.current_pos + 8 ≤ p.movi_end →
      read_bytes p.file p.current_pos 8 = some hdr →
      p.frame_buffer_size < hdr_size hdr →
      avi_parser_next_chunk p =
        avi_parser_next_chunk
          { p with current_pos := chunk_advance p.current_pos (hdr_size hdr) }) := by
  constructor
  · intro p h
    exact next_chunk_loop_size_le _ p h
  · intro p hdr hcond hread hbig
    have hadv := chunk_advance_ge p.current_pos (hdr_size hdr)
    unfold hdr_size at hbig hadv
    unfold avi_parser_next_chunk hdr_size
    obtain ⟨fuel, hfuel⟩ : ∃ f, p.movi_end - p.current_pos = f + 1 :=
      ⟨p.movi_end - p.current_pos - 1, by omega⟩
    rw [hfuel]
    simp only [next_chunk_loop, if_pos hcond, hread]
    rw [if_pos hbig]
    exact next_chunk_loop_irrel fuel _ _ (by simp only; omega) (by simp only; omega)

/-- **C5 witness** — On `c5_container` the first chunk header declares size 5,
exceeding the capacity 4: the parser skips it and returns the following
video chunk of size 2 ≤ 4. -/
theorem c5_chunk_size_invariant_witness :
    ((avi_parser_next_chunk c5_container).1.type ≠ AviChunkType.end_of_stream ∧
     (avi_parser_next_chunk c5_container).1.size ≤ c5_container.frame_buffer_size) ∧
    (read_bytes c5_container.file c5_container.current_pos 8 =
        some [48, 48, 100, 99, 5, 0, 0, 0] ∧
     avi_parser_next_chunk c5_container =
       avi_parser_next_chunk
         { c5_container with
           current_pos := (chunk_advance c5_container.current_pos
             (hdr_size [48, 48, 100, 99, 5, 0, 0, 0])) }) :=
  ⟨⟨by decide, c5_chunk_size_invariant.1 c5_container (by decide)⟩,
   ⟨by decide, c5_chunk_size_invariant.2 c5_container [48, 48, 100, 99, 5, 0, 0, 0]
     (by decide) (by decide) (by decide)⟩⟩

/-- **C6** — Demuxing is deterministic and resumable: `avi_parser_next_chunk`
and `avi_scan` are pure functions of the parser state, so a fixed container
yields a unique (type, size) sequence; `avi_parser_rewind` resets
`current_pos` to `movi_start`, and for a freshly opened parser
(`current_pos = movi_start`) a second full scan after rewinding reproduces
exactly the sequence of the first scan. -/
theorem c6_demux_deterministic_resumable (p : AviParser)
    (hstart : p.current_pos = p.movi_start) :
    (∀ q : AviParser, (avi_parser_rewind q).current_pos = q.movi_start) ∧
    (avi_scan (avi_parser_rewind (avi_scan p).2)).1 = (avi_scan p).1 := by
  refine ⟨fun q => rfl, ?_⟩
  have hrw : avi_parser_rewind (avi_scan p).2 = p := by
    have h := avi_scan_loop_fields (p.movi_end - p.current_pos) p
    obtain ⟨h1, h2, h3, h4⟩ := h
    unfold avi_parser_rewind avi_scan
    cases p with
    | mk f ms me cp fbs =>
      simp only [avi_scan] at h1 h2 h3 h4
      simp only at hstart
      cases hq : (avi_scan_loop (me - cp) (AviParser.mk f ms me cp fbs)).2 with
      | mk f2 ms2 me2 cp2 fbs2 =>
        rw [hq] at h1 h2 h3 h4
        simp only at h1 h2 h3 h4
        simp only [hq, AviParser.mk.injEq]
        exact ⟨h1, h2, h3, h2.trans hstart.symm, h4⟩
  rw [hrw]

/-- **C6 witness** — A fresh parser over a container with one video and one
audio chunk: rewinding after a full scan and re-scanning yields the same
sequence. -/
theorem c6_demux_deterministic_resumable_witness :
    c6_container.current_pos = c6_container.movi_start ∧
    (avi_scan (avi_parser_rewind (avi_scan c6_container).2)).1 =
      (avi_scan c6_container).1 :=
  ⟨by decide, (c6_demux_deterministic_resumable c6_container (by decide)).2⟩

/-- **C10 counterexample** — The claim asserts `frame_duration_ms` is always
strictly positive.  With the degenerate header value `us_per_frame = 1`,
`parse_avih` computes fps = 1000000, `start_playback` keeps it (it is
positive), and `frame_duration_ms = 1000 / 1000000 = 0` — so the
expected-frame computation `elapsed_ms / frame_duration_ms` in
`process_video_frame` divides by zero. -/
theorem c10_frame_duration_counterexample :
    avih_fps 1 = 1000000 ∧
    0 < playback_video_fps (avih_fps 1) ∧
    playback_frame_duration_ms (avih_fps 1) = 0 := by decide

/-- **C10 amended** — `video_fps` is always forced positive (defaulting to 30
when the header reports 0), and `frame_duration_ms` is strictly positive
provided the effective fps does not exceed 1000; in particular any header
with `us_per_frame ≥ 1000` (fps ≤ 1000) yields a positive frame duration.
For fps > 1000 the integer division `1000 / video_fps` truncates to 0 and
the pacer would divide by zero. -/
theorem c10_frame_duration_amended (f u : Nat) (hf : f ≤ 1000) (hu : 1000 ≤ u) :
    1 ≤ playback_video_fps f ∧
    1 ≤ playback_frame_duration_ms f ∧
    avih_fps u ≤ 1000 ∧
    1 ≤ playback_frame_duration_ms (avih_fps u) := by
  have hule : avih_fps u ≤ 1000 := by
    unfold avih_fps
    rw [if_pos (by omega : 0 < u)]
    calc 1000000 / u ≤ 1000000 / 1000 := Nat.div_le_div_left hu (by omega)
    _ = 1000 := by decide
  refine ⟨?_, duration_pos_of_fps_le f hf, hule, duration_pos_of_fps_le _ hule⟩
  unfold playback_video_fps
  split <;> omega

/-- **C10 amended witness** — fps 25 from the header and
`us_per_frame = 40000` both give positive frame durations. -/
theorem c10_frame_duration_amended_witness :
    1 ≤ playback_video_fps 25 ∧
    1 ≤ playback_frame_duration_ms 25 ∧
    avih_fps 40000 ≤ 1000 ∧
    1 ≤ playback_frame_duration_ms (avih_fps 40000) :=
  c10_frame_duration_amended 25 40000 (by decide) (by decide)

/-- **C1** — If the ring buffer is non-empty and the pacer proceeds past its
wait checks (`current_frame <= expected_frame`), the catch-up drop loop never
removes the last buffered frame: at least one frame remains after dropping,
the call does not report end-of-video, that surviving front frame is handed
to the decoder, and (when the decode succeeds) it is displayed — for any
value of `expected_frame = elapsed_ms / frame_duration_ms`. -/
theorem c1_never_drops_last_frame (d e : Nat) (ok : Bool) (inps : Nat → ChunkInput)
    (s : PlayerState) (_hd : 0 < d)
    (hbuf : 1 ≤ s.video_buffered)
    (hsync : s.current_frame ≤ Int.ofNat (e / d)) :
    1 ≤ (drop_frames (Int.ofNat (e / d)) (video_topup 8 inps s)).video_buffered ∧
    (process_video_frame d e ok inps s).ended = false ∧
    (process_video_frame d e ok inps s).decoded_frame =
      some (front (drop_frames (Int.ofNat (e / d)) (video_topup 8 inps s))) ∧
    (ok = true →
      (process_video_frame d e ok inps s).displayed =
        some (front (drop_frames (Int.ofNat (e / d))
          (video_topup 8 inps s))).frame_index) := by
  have hb1 : (1 : Int) ≤ (video_topup 8 inps s).video_buffered :=
    le_trans hbuf (video_topup_buffered_mono 8 inps s)
  have hcur := (video_topup_untouched 8 inps s).1
  have hdrop : 1 ≤ (drop_frames (Int.ofNat (e / d))
      (video_topup 8 inps s)).video_buffered :=
    drop_loop_ge_one _ _ _ hb1
  refine ⟨hdrop, ?_⟩
  have hsync' : (video_topup 8 inps s).current_frame ≤ Int.ofNat (e / d) := by
    rw [hcur]; exact hsync
  unfold process_video_frame
  dsimp only
  rw [if_neg (fun h => absurd h.1 (by omega)), if_neg (not_lt.mpr hsync'),
      if_neg (by omega)]
  cases ok <;> simp

/-- **C1 witness** — One buffered frame, on schedule, decode succeeds: no
early return, the frame survives the drop loop and is decoded and
displayed. -/
theorem c1_never_drops_last_frame_witness :
    1 ≤ (drop_frames (Int.ofNat (0 / 33))
        (video_topup 8 (fun _ => eof_input) one_frame_state)).video_buffered ∧
    (process_video_frame 33 0 true (fun _ => eof_input) one_frame_state).ended = false ∧
    (process_video_frame 33 0 true (fun _ => eof_input) one_frame_state).decoded_frame =
      some (front (drop_frames (Int.ofNat (0 / 33))
        (video_topup 8 (fun _ => eof_input) one_frame_state))) ∧
    (process_video_frame 33 0 true (fun _ => eof_input) one_frame_state).displayed =
      some (front (drop_frames (Int.ofNat (0 / 33))
        (video_topup 8 (fun _ => eof_input) one_frame_state))).frame_index := by
  have h := c1_never_drops_last_frame 33 0 true (fun _ => eof_input) one_frame_state
    (by decide) (by decide) (by decide)
  exact ⟨h.1, h.2.1, h.2.2.1, h.2.2.2 rfl⟩

/-- **C2** — Ring-buffer occupancy stays within `0 ≤ video_buffered ≤ 16`
across any sequence of producer writes (`buffer_one_chunk`) and pacer
drops/pops (`process_video_frame`) from the reset state; a write increments
the counter only when `video_buffered < 16`, and the pacer decrements only
from a positive occupancy. -/
theorem c2_ring_buffer_bounds :
    (∀ ops : List PlayerOp,
      0 ≤ (exec_ops ops reset_state).video_buffered ∧
      (exec_ops ops reset_state).video_buffered ≤ (VIDEO_BUFFER_FRAMES : Int)) ∧
    (∀ (s : PlayerState) (inp : ChunkInput),
      (buffer_one_chunk s inp).1.video_buffered = s.video_buffered ∨
      (s.video_buffered < (VIDEO_BUFFER_FRAMES : Int) ∧
       (buffer_one_chunk s inp).1.video_buffered = s.video_buffered + 1)) ∧
    (∀ (d e : Nat) (ok : Bool) (inps : Nat → ChunkInput) (s : PlayerState),
      0 ≤ s.video_buffered → s.video_buffered ≤ (VIDEO_BUFFER_FRAMES : Int) →
      (process_video_frame d e ok inps s).state.video_buffered <
        (video_topup 8 inps s).video_buffered →
      0 < (video_topup 8 inps s).video_buffered) := by
  refine ⟨?_, buffer_one_chunk_buffered, ?_⟩
  · intro ops
    exact exec_ops_bounds ops reset_state (by decide) (by decide)
  · intro d e ok inps s h0 h16 hdec
    by_contra hpos
    obtain ⟨ht0, _⟩ := video_topup_bounds 8 inps s h0 h16
    have hb0 : (video_topup 8 inps s).video_buffered = 0 := by omega
    rw [process_video_frame_b0 d e ok inps s hb0] at hdec
    omega

/-- **C2 witness** — Bounds after a concrete producer write, and a concrete
pacer call that decremented a positive occupancy. -/
theorem c2_ring_buffer_bounds_witness :
    (0 ≤ (exec_ops [PlayerOp.buffer c4_inp] reset_state).video_buffered ∧
     (exec_ops [PlayerOp.buffer c4_inp] reset_state).video_buffered ≤
       (VIDEO_BUFFER_FRAMES : Int)) ∧
    0 < (video_topup 8 (fun _ => eof_input) two_frame_state).video_buffered := by
  refine ⟨c2_ring_buffer_bounds.1 [PlayerOp.buffer c4_inp], ?_⟩
  exact c2_ring_buffer_bounds.2.2 33 500 true (fun _ => eof_input) two_frame_state
    (by decide) (by decide) (by decide)

/-- **C3** — The pending-audio stash policy.  (The stash holds at most one
chunk at all times by construction: it is the single `pending_audio_data`
buffer with one size field.)  (i) `buffer_one_chunk` retries a held chunk
before reading any new chunk from the demuxer: the whole call behaves
exactly as the same call run on the post-retry state with nothing left to
retry.  (ii) The retry clears the stash exactly when the retry push returns
`ESP_OK`.  (iii) The stash is non-empty only after a failed push: a
non-empty stash after the call means either the newly demuxed audio chunk's
push timed out (and was captured), or the stash was already occupied and the
retry push did not succeed (and it is unchanged). -/
theorem c3_stash_policy (s : PlayerState) (inp : ChunkInput) :
    (buffer_one_chunk s inp =
      buffer_one_chunk (retry_pending s inp.retryPush)
        ⟨inp.demux, PushResult.timeout, inp.newPush⟩) ∧
    (0 < s.pending_audio_size →
      ((retry_pending s inp.retryPush).pending_audio_size = 0 ↔
        inp.retryPush = PushResult.ok)) ∧
    (0 < (buffer_one_chunk s inp).1.pending_audio_size →
      ((∃ dat sz, inp.demux = some ⟨AviChunkType.audio, dat, sz⟩ ∧
          inp.newPush = PushResult.timeout ∧
          (buffer_one_chunk s inp).1.pending_audio_size = sz) ∨
       (0 < s.pending_audio_size ∧ inp.retryPush ≠ PushResult.ok ∧
        (buffer_one_chunk s inp).1.pending_audio_size =
          s.pending_audio_size))) := by
  refine ⟨?_, ?_, ?_⟩
  · unfold buffer_one_chunk
    dsimp only
    rw [retry_pending_idem]
  · intro hpos
    rw [retry_pending_size]
    constructor
    · intro h
      by_contra hne
      rw [if_neg (fun hh => hne hh.2)] at h
      omega
    · intro h
      rw [if_pos ⟨hpos, h⟩]
  · intro hpos
    rcases buffer_one_chunk_pending_char s inp with
      ⟨dat, sz, hdm, hlt, hnp, hsz, hps, hpd⟩ | ⟨hps, hpd⟩
    · exact Or.inl ⟨dat, sz, hdm, hnp, hps⟩
    · right
      rw [hps, retry_pending_size] at hpos ⊢
      by_cases hr : inp.retryPush = PushResult.ok
      · by_cases hs0 : 0 < s.pending_audio_size
        · rw [if_pos ⟨hs0, hr⟩] at hpos
          omega
        · rw [if_neg (fun hh => hs0 hh.1)] at hpos
          exact absurd hpos hs0
      · rw [if_neg (fun hh => hr hh.2)] at hpos
        exact ⟨hpos, hr, by rw [if_neg (fun hh => hr hh.2)]⟩

/-- **C3 witness** — A held 3-byte chunk whose retry times out, followed by
a newly demuxed 2-byte audio chunk whose push also times out: the retry is
attempted first (equation), the stash is not cleared (iff with a failed
retry), and the resulting non-empty stash traces to the timed-out push. -/
theorem c3_stash_policy_witness :
    (buffer_one_chunk pending_state c3_inp =
      buffer_one_chunk (retry_pending pending_state c3_inp.retryPush)
        ⟨c3_inp.demux, PushResult.timeout, c3_inp.newPush⟩) ∧
    ((retry_pending pending_state c3_inp.retryPush).pending_audio_size = 0 ↔
      c3_inp.retryPush = PushResult.ok) ∧
    ((∃ dat sz, c3_inp.demux = some ⟨AviChunkType.audio, dat, sz⟩ ∧
        c3_inp.newPush = PushResult.timeout ∧
        (buffer_one_chunk pending_state c3_inp).1.pending_audio_size = sz) ∨
     (0 < pending_state.pending_audio_size ∧
      c3_inp.retryPush ≠ PushResult.ok ∧
      (buffer_one_chunk pending_state c3_inp).1.pending_audio_size =
        pending_state.pending_audio_size)) :=
  ⟨(c3_stash_policy pending_state c3_inp).1,
   (c3_stash_policy pending_state c3_inp).2.1 (by decide),
   (c3_stash_policy pending_state c3_inp).2.2 (by decide)⟩

/-- **C4 counterexample** — The claim says every audio chunk whose push
times out is captured in the stash, regardless of its size.  A demuxed
4097-byte audio chunk whose push times out is *not* captured (the stash
guard is `chunk.size <= sizeof(pending_audio_data)` = 4096): the stash stays
empty and the call still returns 0 ("handled"), so the chunk is silently
discarded. -/
theorem c4_no_silent_drop_counterexample :
    c4_big_inp.newPush = PushResult.timeout ∧
    (buffer_one_chunk reset_state c4_big_inp).1.pending_audio_size = 0 ∧
    (buffer_one_chunk reset_state c4_big_inp).2 = 0 := by decide

/-- **C4 amended** — An audio chunk whose push times out is captured in the
stash only when its size is at most 4096 bytes (then it overwrites any
previously stashed chunk, which is discarded); a larger timed-out chunk is
dropped, leaving the stash as the retry step left it.  In both cases the
call reports the chunk as handled (returns 0). -/
theorem c4_backpressure_amended (s : PlayerState) (inp : ChunkInput)
    (dat : List Nat) (sz : Nat)
    (hdemux : inp.demux = some ⟨AviChunkType.audio, dat, sz⟩)
    (hfull : inp.newPush = PushResult.timeout)
    (hroom : s.video_buffered < (VIDEO_BUFFER_FRAMES : Int)) :
    (sz ≤ PENDING_AUDIO_CAPACITY →
      (buffer_one_chunk s inp).1.pending_audio_size = sz ∧
      (buffer_one_chunk s inp).1.pending_audio_data = dat) ∧
    (PENDING_AUDIO_CAPACITY < sz →
      (buffer_one_chunk s inp).1.pending_audio_size =
        (retry_pending s inp.retryPush).pending_audio_size ∧
      (buffer_one_chunk s inp).1.pending_audio_data = s.pending_audio_data) ∧
    (buffer_one_chunk s inp).2 = 0 := by
  obtain ⟨hf1, hf2, hf3, hf4, hf5, hf6, hf7, hf8, hf9⟩ :=
    retry_pending_fields s inp.retryPush
  unfold buffer_one_chunk
  rw [hdemux, hfull]
  dsimp only
  rw [if_neg (by omega)]
  refine ⟨?_, ?_, ?_⟩
  · intro hsz
    rw [if_pos rfl, if_pos hsz]
    exact ⟨rfl, rfl⟩
  · intro hsz
    rw [if_pos rfl, if_neg (by omega)]
    exact ⟨rfl, hf7⟩
  · rw [if_pos rfl]
    split <;> rfl

/-- **C4 amended witness** — A 2-byte timed-out audio chunk is captured into
the stash and the call returns 0. -/
theorem c4_backpressure_amended_witness :
    (buffer_one_chunk reset_state c4_inp).1.pending_audio_size = 2 ∧
    (buffer_one_chunk reset_state c4_inp).1.pending_audio_data = [5, 6] ∧
    (buffer_one_chunk reset_state c4_inp).2 = 0 :=
  ⟨((c4_backpressure_amended reset_state c4_inp [5, 6] 2 (by decide) (by decide)
      (by decide)).1 (by decide)).1,
   ((c4_backpressure_amended reset_state c4_inp [5, 6] 2 (by decide) (by decide)
      (by decide)).1 (by decide)).2,
   (c4_backpressure_amended reset_state c4_inp [5, 6] 2 (by decide) (by decide)
      (by decide)).2.2⟩

/-- **C7** — The pre-buffer target equals
`clamp(PRE_BUFFER_TIME_MS * fps / 1000, 3, VIDEO_BUFFER_FRAMES - 2)`
(= clamp(300·fps/1000, 3, 14)) for every fps, and `prebuffer_chunks` pulls
chunks until the ring holds the target frame count or end-of-file is
recorded, without touching the playback clock. -/
theorem c7_prebuffer_target (fps : Nat) (inps : List ChunkInput) (s : PlayerState) :
    target_frames fps =
      max 3 (min (VIDEO_BUFFER_FRAMES - 2) (PRE_BUFFER_TIME_MS * fps / 1000)) ∧
    ((target_frames fps : Int) ≤ (prebuffer_chunks fps inps s).video_buffered ∨
      (prebuffer_chunks fps inps s).end_of_file = true) ∧
    (prebuffer_chunks fps inps s).playback_start_time_us =
      s.playback_start_time_us := by
  have hpost := prebuffer_loop_post inps (target_frames fps) s (target_frames_le fps)
  refine ⟨?_, hpost.1, hpost.2⟩
  unfold target_frames VIDEO_BUFFER_FRAMES PRE_BUFFER_TIME_MS
  dsimp only
  split_ifs <;> omega

/-- **C8 counterexample** — The claim says audio end-of-stream is signaled
on the first pacer step after `end_of_file` becomes true.  In a state where
end-of-file is already reached but one frame is still buffered, the pacer
step does not call `audio_player_end_stream` (and does not report the video
as ended): the code signals only once the ring has also drained to zero. -/
theorem c8_eos_counterexample :
    one_frame_state.end_of_file = true ∧
    0 < one_frame_state.video_buffered ∧
    (process_video_frame 33 0 true (fun _ => eof_input)
        one_frame_state).end_stream_signaled = false ∧
    (process_video_frame 33 0 true (fun _ => eof_input)
        one_frame_state).ended = false := by decide

/-- **C8 amended** — `audio_player_end_stream` is raised exactly on the
pacer step at which, after the top-up reads, end-of-file has been reached
*and* the ring buffer is empty; until then video keeps pacing from the
remaining ring contents, and the step that signals is the same step that
reports the video as ended. -/
theorem c8_eos_amended (d e : Nat) (ok : Bool) (inps : Nat → ChunkInput)
    (s : PlayerState) :
    ((process_video_frame d e ok inps s).end_stream_signaled = true ↔
      ((video_topup 8 inps s).video_buffered = 0 ∧
       (video_topup 8 inps s).end_of_file = true)) ∧
    (process_video_frame d e ok inps s).ended =
      (process_video_frame d e ok inps s).end_stream_signaled := by
  unfold process_video_frame
  dsimp only
  split_ifs <;> simp_all

/-- **C9 counterexample** — The claim says `current_frame` strictly
increases on every call where a frame was available and the wait checks
passed.  With one buffered frame, on schedule, and a failing MJPEG decode,
the frame is consumed and handed to the decoder but `current_frame` is
unchanged (main.c only sets it inside the `ret == ESP_OK && bgr_out`
branch). -/
theorem c9_monotonic_display_counterexample :
    0 < one_frame_state.video_buffered ∧
    one_frame_state.current_frame ≤ Int.ofNat (0 / 33) ∧
    ((process_video_frame 33 0 false (fun _ => eof_input)
        one_frame_state).decoded_frame).isSome = true ∧
    (process_video_frame 33 0 false (fun _ => eof_input)
        one_frame_state).state.current_frame =
      one_frame_state.current_frame := by decide

/-- **C9 amended** — In any state satisfying the ring ordering invariant of
reachable states (front frame index at least `current_frame`, indices
strictly increasing along the occupied window), a pacer call that proceeds
past its wait checks never decreases `current_frame`, and strictly
increases it whenever the decode succeeds. -/
theorem c9_monotonic_display_amended (d e : Nat) (ok : Bool)
    (inps : Nat → ChunkInput) (s : PlayerState) (_hd : 0 < d)
    (hbuf : 1 ≤ (video_topup 8 inps s).video_buffered)
    (hread : (video_topup 8 inps s).video_read_idx < VIDEO_BUFFER_FRAMES)
    (hord : ring_ordered (video_topup 8 inps s))
    (hsync : (video_topup 8 inps s).current_frame ≤ Int.ofNat (e / d)) :
    s.current_frame ≤ (process_video_frame d e ok inps s).state.current_frame ∧
    (ok = true →
      s.current_frame < (process_video_frame d e ok inps s).state.current_frame) := by
  have hcur := (video_topup_untouched 8 inps s).1
  have hdl := drop_loop_ordered (video_topup 8 inps s).video_buffered.toNat
    (Int.ofNat (e / d)) (video_topup 8 inps s) hbuf hread hord
  have hb2 : 1 ≤ (drop_frames (Int.ofNat (e / d))
      (video_topup 8 inps s)).video_buffered := hdl.1
  have hr2 : (drop_frames (Int.ofNat (e / d))
      (video_topup 8 inps s)).video_read_idx < VIDEO_BUFFER_FRAMES := hdl.2.1
  have ho2 : ring_ordered (drop_frames (Int.ofNat (e / d))
      (video_topup 8 inps s)) := hdl.2.2.1
  have hc2 : (video_topup 8 inps s).current_frame ≤
      (drop_frames (Int.ofNat (e / d)) (video_topup 8 inps s)).current_frame :=
    hdl.2.2.2
  have hfr : (drop_frames (Int.ofNat (e / d)) (video_topup 8 inps s)).current_frame ≤
      (front (drop_frames (Int.ofNat (e / d)) (video_topup 8 inps s))).frame_index := by
    have h0 := ho2.1 (by omega)
    rw [front_frame_at _ hr2]
    exact h0
  unfold process_video_frame
  dsimp only
  rw [if_neg (fun h => absurd h.1 (by omega)), if_neg (not_lt.mpr hsync),
      if_neg (by omega)]
  by_cases hok : ok = true
  · rw [if_pos hok]
    dsimp only
    exact ⟨by omega, fun _ => by omega⟩
  · rw [if_neg hok]
    dsimp only
    exact ⟨by omega, fun h => absurd h hok⟩

/-- **C9 amended witness** — Two buffered frames (indices 0, 1), far behind
schedule, decode succeeds: frame 0 is dropped, frame 1 displayed, and
`current_frame` goes from 0 to 2. -/
theorem c9_monotonic_display_amended_witness :
    two_frame_state.current_frame ≤
      (process_video_frame 33 500 true (fun _ => eof_input)
        two_frame_state).state.current_frame ∧
    two_frame_state.current_frame <
      (process_video_frame 33 500 true (fun _ => eof_input)
        two_frame_state).state.current_frame := by
  have h := c9_monotonic_display_amended 33 500 true (fun _ => eof_input)
    two_frame_state (by decide) (by decide) (by decide) (by decide) (by decide)
  exact ⟨h.1, h.2 rfl⟩

end HHGG
